import Mathlib

/-
Formal verification of the BlenPC v5 integer-grid geometry kernel.

Shallow embedding conventions:
- Python floats are modelled as exact rationals (ℚ); the wall-strip builder,
  which takes a square root, is modelled over ℝ.
- Python's built-in `round` is modelled by `pyRound` (nearest integer, ties to
  even), matching its documented semantics.
- Python exceptions are modelled with `Except` / explicit error inductives.
- Python `dict`s are modelled as association lists that preserve insertion
  order, with `alookup` / `dictInsert` / `dictErase` mirroring lookup,
  assignment and deletion.
-/

namespace BlenPC

/-! ## Configuration constants (src/blenpc/config.py) -/

/-- MICRO_UNIT = 0.025 (config.py). -/
def MICRO_UNIT : ℚ := 1/40

/-- GRID = 0.25 (config.py). -/
def GRID : ℚ := 1/4

/-- STORY_HEIGHT = 3.20 (config.py). -/
def STORY_HEIGHT : ℚ := 16/5

/-- WALL_HEIGHT = 3.00 (config.py). -/
def WALL_HEIGHT : ℚ := 3

/-- WALL_THICKNESS = 0.20 (config.py). -/
def WALL_THICKNESS : ℚ := 1/5

/-- SNAP_MODES as actually defined in config.py section 5.1:
keys LOOSE / STRICT / MODULAR with metric values 0.25 / 0.025 / 0.1.
Insertion order preserved. -/
def SNAP_MODES : List (String × ℚ) := [("LOOSE", 1/4), ("STRICT", 1/40), ("MODULAR", 1/10)]

/-! ## Python dict and round primitives -/

/-- Python dict lookup on an insertion-ordered association list. -/
def alookup {α β : Type} [DecidableEq α] (k : α) : List (α × β) → Option β
  | [] => none
  | (k₁, v) :: t => if k₁ = k then some v else alookup k t

/-- Python dict assignment `d[k] = v`: overwrite in place if the key exists,
append otherwise. -/
def dictInsert {α β : Type} [DecidableEq α] (l : List (α × β)) (k : α) (v : β) :
    List (α × β) :=
  match l with
  | [] => [(k, v)]
  | (k₁, v₁) :: t => if k₁ = k then (k, v) :: t else (k₁, v₁) :: dictInsert t k v

/-- Python dict deletion `d.pop(k, None)`: drop the first entry with key `k`. -/
def dictErase {α β : Type} [DecidableEq α] (l : List (α × β)) (k : α) :
    List (α × β) :=
  match l with
  | [] => []
  | (k₁, v₁) :: t => if k₁ = k then t else (k₁, v₁) :: dictErase t k

/-- Python's built-in `round` on exact rationals: nearest integer,
ties go to the even integer (banker's rounding). -/
def pyRound (q : ℚ) : ℤ :=
  let f := ⌊q⌋
  if q - f < 1/2 then f
  else if q - f > 1/2 then f + 1
  else if f % 2 = 0 then f else f + 1

/-! ## GridPos (src/blenpc/engine/grid_pos.py) -/

/-- Integer-based 3D coordinate in grid space (grid_pos.py, class GridPos). -/
structure GridPos where
  x : ℤ
  y : ℤ
  z : ℤ
deriving DecidableEq

/-- GridPos.to_meters: multiply each integer coordinate by MICRO_UNIT. -/
def to_meters (p : GridPos) : ℚ × ℚ × ℚ :=
  (p.x * MICRO_UNIT, p.y * MICRO_UNIT, p.z * MICRO_UNIT)

/-- Error raised by GridPos.from_meters for an unrecognized snap mode
(grid_pos.py raises ValueError). -/
inductive SnapError where
  | invalidSnapMode (snap : String)
deriving DecidableEq

/-- Inner helper snap_coord of GridPos.from_meters (grid_pos.py lines 80-82):
snapped = round(value / snap_unit) * snap_unit; return round(snapped / MICRO_UNIT). -/
def snap_coord (snap_unit : ℚ) (value : ℚ) : ℤ :=
  let snapped : ℚ := (pyRound (value / snap_unit) : ℚ) * snap_unit
  pyRound (snapped / MICRO_UNIT)

/-- GridPos.from_meters (grid_pos.py lines 51-88): rejects snap modes that are
not keys of config.SNAP_MODES, otherwise snaps each coordinate with snap_coord
where snap_unit = SNAP_MODES[snap] * MICRO_UNIT. -/
def from_meters (mx my mz : ℚ) (snap : String) : Except SnapError GridPos :=
  match alookup snap SNAP_MODES with
  | none => .error (.invalidSnapMode snap)
  | some mult =>
      let snap_unit := mult * MICRO_UNIT
      .ok ⟨snap_coord snap_unit mx, snap_coord snap_unit my, snap_coord snap_unit mz⟩

/-! ## Vertical authority (src/blenpc/mf_v5/vertical_authority.py) -/

/-- Standardized vertical coordinates for a floor (vertical_authority.py). -/
structure FloorElevations where
  base_z : ℚ
  wall_top_z : ℚ
  slab_top_z : ℚ
deriving DecidableEq

/-- floor_elevations (vertical_authority.py lines 11-22) under exact
rational arithmetic. The program computes IEEE binary64 doubles;
floor_elevations64 below is the bit-accurate model of that, and this exact
reading is used where a property does not turn on sub-ulp rounding (the
validator's coarse threshold comparisons). -/
def floor_elevations (floor_idx : ℤ) : FloorElevations :=
  let base : ℚ := (floor_idx : ℚ) * STORY_HEIGHT
  ⟨base, base + WALL_HEIGHT, base + STORY_HEIGHT⟩

/-- IEEE binary64 rounding (round to nearest, ties to even) of an exact
rational, modelled in the normal range: the value is scaled by a power of
two to a 53-bit significand in [2^52, 2^53) and the significand is rounded
with pyRound, whose half-to-even tie rule is the IEEE default rule.
Overflow and subnormals are not modelled; every value arising below is a
normal double. -/
def fl64 (q : ℚ) : ℚ :=
  if q = 0 then 0
  else
    let e : ℤ := Int.log 2 |q| - 52
    (if q < 0 then (-1 : ℚ) else 1) * (pyRound (|q| / 2 ^ e) : ℚ) * 2 ^ e

/-- The binary64 double the source literal 3.20 (config STORY_HEIGHT)
denotes at runtime. -/
def SH64 : ℚ := fl64 (16/5)

/-- The binary64 double the source literal 3.00 (config WALL_HEIGHT)
denotes at runtime. -/
def WH64 : ℚ := fl64 3

/-- floor_elevations (vertical_authority.py lines 11-22) as the program
executes it: IEEE binary64 arithmetic, with the config constants
STORY_HEIGHT = 3.20 and WALL_HEIGHT = 3.00 parsed as doubles, the integer
floor index converted to a double, and every arithmetic operation rounded. -/
def floor_elevations64 (floor_idx : ℤ) : FloorElevations :=
  let base := fl64 (fl64 (floor_idx : ℚ) * SH64)
  ⟨base, fl64 (base + WH64), fl64 (base + SH64)⟩

/-! ## Claim C1 -/

/-- C1: the claim says from_meters succeeds for every canonical snap mode in
micro / meso / macro. The code rejects all three, because config.SNAP_MODES
has keys LOOSE / STRICT / MODULAR: this theorem evaluates the code at the
failing inputs, for every metric coordinate m. -/
theorem from_meters_rejects_canonical_modes (m : ℚ) :
    from_meters m 0 0 "micro" = .error (.invalidSnapMode "micro")
    ∧ from_meters m 0 0 "meso" = .error (.invalidSnapMode "meso")
    ∧ from_meters m 0 0 "macro" = .error (.invalidSnapMode "macro") := by
  refine ⟨rfl, rfl, rfl⟩

/-! ## Claim C6 -/

/-- C6 counterexample: with the recognized snap mode LOOSE the snap unit is
SNAP_MODES[LOOSE] * MICRO_UNIT = 1/160, and the metric input 1/64 lies exactly
halfway between the adjacent grid multiples 2 * (1/160) and 3 * (1/160).
Half-away-from-zero rounding would snap to the farther multiple 3/160, but the
code returns GridPos 0 (metric 0): Python round is half-to-even, and it is
applied a second time at MICRO_UNIT granularity. -/
theorem snap_coord_not_half_away_from_zero :
    (1/64 : ℚ) - 2 * ((1/4) * MICRO_UNIT) = 3 * ((1/4) * MICRO_UNIT) - 1/64
    ∧ from_meters (1/64) 0 0 "LOOSE" = .ok ⟨0, 0, 0⟩
    ∧ (to_meters ⟨0, 0, 0⟩).1 = 0
    ∧ (0 : ℚ) ≠ 3 * ((1/4) * MICRO_UNIT) := by
  refine ⟨by norm_num [MICRO_UNIT], ?_, by norm_num [to_meters], by norm_num [MICRO_UNIT]⟩
  have h64 : ((1:ℚ)/64) / (1/4 * MICRO_UNIT) = 5/2 := by norm_num [MICRO_UNIT]
  have h1 : snap_coord ((1/4) * MICRO_UNIT) (1/64) = 0 := by
    simp only [snap_coord, h64]
    norm_num [pyRound, MICRO_UNIT]
  have h0 : snap_coord ((1/4) * MICRO_UNIT) 0 = 0 := by
    norm_num [snap_coord, pyRound, MICRO_UNIT]
  simp only [from_meters, alookup, SNAP_MODES]
  norm_num [h1, h0]

/-- C6 amended: for every metric coordinate and every snap mode the code
recognizes (LOOSE, STRICT, MODULAR), from_meters succeeds, the x component is
snap_coord at snap unit SNAP_MODES[snap] * MICRO_UNIT, and the resulting metric
coordinate is a multiple of SNAP_MODES[snap] * MICRO_UNIT; the rounding used is
Python round (half-to-even), not half-away-from-zero. -/
theorem from_meters_snaps_recognized_modes (m : ℚ) (s : String) (mult : ℚ)
    (h : alookup s SNAP_MODES = some mult) :
    ∃ p : GridPos, from_meters m 0 0 s = .ok p
      ∧ p.x = snap_coord (mult * MICRO_UNIT) m
      ∧ ∃ k : ℤ, (to_meters p).1 = (k : ℚ) * (mult * MICRO_UNIT) := by
  have hm : mult = 1/4 ∨ mult = 1/40 ∨ mult = 1/10 := by
    simp only [alookup, SNAP_MODES] at h
    split_ifs at h <;> simp_all
  refine ⟨⟨snap_coord (mult * MICRO_UNIT) m, snap_coord (mult * MICRO_UNIT) 0,
    snap_coord (mult * MICRO_UNIT) 0⟩, by simp only [from_meters, h], rfl, ?_⟩
  simp only [to_meters]
  rcases hm with hm | hm | hm <;> subst hm
  · exact ⟨4 * snap_coord (1/4 * MICRO_UNIT) m, by push_cast; unfold MICRO_UNIT; ring⟩
  · exact ⟨40 * snap_coord (1/40 * MICRO_UNIT) m, by push_cast; unfold MICRO_UNIT; ring⟩
  · exact ⟨10 * snap_coord (1/10 * MICRO_UNIT) m, by push_cast; unfold MICRO_UNIT; ring⟩

/-- C6 amended, witness at m = 1, snap mode LOOSE. -/
theorem from_meters_snaps_recognized_modes_witness :
    ∃ p : GridPos, from_meters 1 0 0 "LOOSE" = .ok p
      ∧ p.x = snap_coord ((1/4) * MICRO_UNIT) 1
      ∧ ∃ k : ℤ, (to_meters p).1 = (k : ℚ) * ((1/4) * MICRO_UNIT) :=
  from_meters_snaps_recognized_modes 1 "LOOSE" (1/4) rfl

/-! ## Claim C7 -/

theorem int_log_two_eq {q : ℚ} {n : ℤ} (hq : 0 < q) (h₁ : (2 : ℚ) ^ n ≤ q)
    (h₂ : q < (2 : ℚ) ^ (n + 1)) : Int.log 2 q = n := by
  have hl : n ≤ Int.log 2 q :=
    (Int.zpow_le_iff_le_log one_lt_two hq).mp (by exact_mod_cast h₁)
  have hu : Int.log 2 q < n + 1 :=
    (Int.lt_zpow_iff_log_lt one_lt_two hq).mp (by exact_mod_cast h₂)
  omega

theorem pyRound_intCast (m : ℤ) : pyRound (m : ℚ) = m := by
  simp [pyRound]

theorem fl64_pos_eval {q : ℚ} {n : ℤ} (hq : 0 < q) (h₁ : (2 : ℚ) ^ n ≤ q)
    (h₂ : q < (2 : ℚ) ^ (n + 1)) :
    fl64 q = (pyRound (q / 2 ^ (n - 52)) : ℚ) * 2 ^ (n - 52) := by
  have hlog : Int.log 2 q = n := int_log_two_eq hq h₁ h₂
  have habs : |q| = q := abs_of_pos hq
  simp only [fl64, if_neg (ne_of_gt hq), habs, hlog, if_neg (not_lt.mpr (le_of_lt hq)),
    one_mul]

theorem fl64_exact {q : ℚ} {n : ℤ} (m : ℤ) (hq : 0 < q) (h₁ : (2 : ℚ) ^ n ≤ q)
    (h₂ : q < (2 : ℚ) ^ (n + 1)) (hm : q = (m : ℚ) * 2 ^ (n - 52)) : fl64 q = q := by
  rw [fl64_pos_eval hq h₁ h₂]
  have h2 : ((2 : ℚ) ^ (n - 52)) ≠ 0 := by positivity
  have hdiv : q / 2 ^ (n - 52) = (m : ℚ) := by
    rw [hm, mul_div_assoc, div_self h2, mul_one]
  rw [hdiv, pyRound_intCast, ← hm]

theorem fl64_zero : fl64 0 = 0 := by simp [fl64]

theorem fl64_one : fl64 1 = 1 :=
  fl64_exact (n := 0) (2 ^ 52) (by norm_num) (by norm_num) (by norm_num) (by norm_num)

theorem fl64_two : fl64 2 = 2 :=
  fl64_exact (n := 1) (2 ^ 52) (by norm_num) (by norm_num) (by norm_num) (by norm_num)

theorem fl64_three : fl64 3 = 3 :=
  fl64_exact (n := 1) 6755399441055744 (by norm_num) (by norm_num) (by norm_num) (by norm_num)

/-- The double nearest 3.2: rounding 3.2 up by one ulp of its binade. -/
theorem sh64_eval : SH64 = 3602879701896397 / 2 ^ 50 := by
  rw [SH64, fl64_pos_eval (n := 1) (by norm_num) (by norm_num) (by norm_num)]
  norm_num [pyRound]

/-- The double 3.2 is exactly representable, so rounding fixes it. -/
theorem fl64_sh64 : fl64 (3602879701896397 / 2 ^ 50) = 3602879701896397 / 2 ^ 50 :=
  fl64_exact (n := 1) 7205759403792794 (by norm_num) (by norm_num) (by norm_num) (by norm_num)

/-- 2 × 3.2 is a power-of-two scaling, hence exact. -/
theorem fl64_two_sh64 : fl64 (3602879701896397 / 2 ^ 49) = 3602879701896397 / 2 ^ 49 :=
  fl64_exact (n := 2) 7205759403792794 (by norm_num) (by norm_num) (by norm_num) (by norm_num)

/-- 3 × 3.2 falls exactly halfway between two doubles; the even-significand
neighbor 1351079888211149 * 2^-47 (= 9.600000000000001...) wins the tie. -/
theorem fl64_three_sh64 :
    fl64 (3 * (3602879701896397 / 2 ^ 50)) = 1351079888211149 / 2 ^ 47 := by
  rw [fl64_pos_eval (n := 3) (by norm_num) (by norm_num) (by norm_num)]
  norm_num [pyRound]

theorem base64_zero : (floor_elevations64 0).base_z = 0 := by
  show fl64 (fl64 ((0 : ℤ) : ℚ) * SH64) = 0
  norm_num [fl64_zero]

theorem base64_one : (floor_elevations64 1).base_z = 3602879701896397 / 2 ^ 50 := by
  show fl64 (fl64 ((1 : ℤ) : ℚ) * SH64) = _
  rw [show ((1 : ℤ) : ℚ) = 1 by norm_num, fl64_one, one_mul, sh64_eval, fl64_sh64]

theorem base64_two : (floor_elevations64 2).base_z = 3602879701896397 / 2 ^ 49 := by
  show fl64 (fl64 ((2 : ℤ) : ℚ) * SH64) = _
  rw [show ((2 : ℤ) : ℚ) = 2 by norm_num, fl64_two, sh64_eval,
    show (2 : ℚ) * (3602879701896397 / 2 ^ 50) = 3602879701896397 / 2 ^ 49 by norm_num,
    fl64_two_sh64]

theorem base64_three : (floor_elevations64 3).base_z = 1351079888211149 / 2 ^ 47 := by
  show fl64 (fl64 ((3 : ℤ) : ℚ) * SH64) = _
  rw [show ((3 : ℤ) : ℚ) = 3 by norm_num, fl64_three, sh64_eval, fl64_three_sh64]

/-- C7 counterexample: under the program's IEEE binary64 arithmetic the
claim's exactness fails from floor index 2 on. The program returns
base_z(2) = 3602879701896397/2^49 (the double 6.4) and base_z(3) =
1351079888211149/2^47 (the double 9.600000000000001); their difference —
whether taken exactly or rounded again by a float subtraction — is
1801439850948199/2^49 (the double 3.200000000000001), which is not the
double STORY_HEIGHT = 3602879701896397/2^50; the differences for floor
indices 0 and 1 are still exact. -/
theorem floor_elevations_float_cex :
    (floor_elevations64 2).base_z = 3602879701896397 / 2 ^ 49
    ∧ (floor_elevations64 3).base_z = 1351079888211149 / 2 ^ 47
    ∧ (floor_elevations64 3).base_z - (floor_elevations64 2).base_z ≠ SH64
    ∧ fl64 ((floor_elevations64 3).base_z - (floor_elevations64 2).base_z) ≠ SH64
    ∧ (floor_elevations64 1).base_z - (floor_elevations64 0).base_z = SH64
    ∧ (floor_elevations64 2).base_z - (floor_elevations64 1).base_z = SH64 := by
  have hd : (floor_elevations64 3).base_z - (floor_elevations64 2).base_z
      = 1801439850948199 / 2 ^ 49 := by
    rw [base64_two, base64_three]; norm_num
  refine ⟨base64_two, base64_three, ?_, ?_, ?_, ?_⟩
  · rw [hd, sh64_eval]; norm_num
  · rw [hd, fl64_exact (n := 1) 7205759403792796 (by norm_num) (by norm_num)
      (by norm_num) (by norm_num), sh64_eval]
    norm_num
  · rw [base64_zero, base64_one, sh64_eval]; norm_num
  · rw [base64_one, base64_two, sh64_eval]; norm_num

/-- C7 amended: for every floor index i ≥ 0 the program computes
base_z = fl(i × STORY_HEIGHT), wall_top_z = fl(base_z + WALL_HEIGHT) and
slab_top_z = fl(base_z + STORY_HEIGHT), where fl is IEEE binary64 rounding
and the constants are the doubles nearest 3.2 and 3.0; the consecutive
difference base_z(i+1) − base_z(i) equals STORY_HEIGHT exactly under exact
rational arithmetic for every i, and in the program's double arithmetic for
i = 0 and i = 1, but not for every i (first failure at i = 2, see the
counterexample). -/
theorem floor_elevations64_spec (i : ℤ) (h : 0 ≤ i) :
    floor_elevations64 i
      = ⟨fl64 (fl64 (i : ℚ) * SH64),
         fl64 (fl64 (fl64 (i : ℚ) * SH64) + WH64),
         fl64 (fl64 (fl64 (i : ℚ) * SH64) + SH64)⟩
    ∧ (floor_elevations64 1).base_z - (floor_elevations64 0).base_z = SH64
    ∧ (floor_elevations64 2).base_z - (floor_elevations64 1).base_z = SH64
    ∧ (floor_elevations (i + 1)).base_z - (floor_elevations i).base_z = STORY_HEIGHT := by
  refine ⟨rfl, ?_, ?_, ?_⟩
  · rw [base64_zero, base64_one, sh64_eval]; norm_num
  · rw [base64_one, base64_two, sh64_eval]; norm_num
  · simp only [floor_elevations]
    push_cast
    ring

/-- C7 amended, witness at floor index 0. -/
theorem floor_elevations64_spec_witness :
    floor_elevations64 0
      = ⟨fl64 (fl64 ((0 : ℤ) : ℚ) * SH64),
         fl64 (fl64 (fl64 ((0 : ℤ) : ℚ) * SH64) + WH64),
         fl64 (fl64 (fl64 ((0 : ℤ) : ℚ) * SH64) + SH64)⟩
    ∧ (floor_elevations (0 + 1)).base_z - (floor_elevations 0).base_z = STORY_HEIGHT :=
  ⟨(floor_elevations64_spec 0 (by norm_num)).1,
   (floor_elevations64_spec 0 (by norm_num)).2.2.2⟩

/-! ## Association-list (Python dict) lemmas -/

theorem alookup_eq_none_iff {α β : Type} [DecidableEq α] (k : α) (l : List (α × β)) :
    alookup k l = none ↔ k ∉ l.map Prod.fst := by
  induction l with
  | nil => simp [alookup]
  | cons p t ih =>
      obtain ⟨k₁, v₁⟩ := p
      by_cases hk : k₁ = k
      · subst hk; simp [alookup]
      · have hk₂ : k ≠ k₁ := fun e => hk e.symm
        simp only [alookup, if_neg hk, List.map_cons, List.mem_cons, not_or, ih]
        tauto

theorem alookup_dictInsert_self {α β : Type} [DecidableEq α] (l : List (α × β)) (k : α) (v : β) :
    alookup k (dictInsert l k v) = some v := by
  induction l with
  | nil => simp [alookup, dictInsert]
  | cons p t ih =>
      obtain ⟨k₁, v₁⟩ := p
      by_cases hk : k₁ = k
      · subst hk; simp [alookup, dictInsert]
      · simp [alookup, dictInsert, hk, ih]

theorem alookup_dictInsert_ne {α β : Type} [DecidableEq α] (l : List (α × β)) (k k₁ : α) (v : β)
    (h : k₁ ≠ k) : alookup k₁ (dictInsert l k v) = alookup k₁ l := by
  have h₂ : k ≠ k₁ := fun e => h e.symm
  induction l with
  | nil => simp [alookup, dictInsert, h₂]
  | cons p t ih =>
      obtain ⟨k₂, v₂⟩ := p
      by_cases hk : k₂ = k
      · subst hk
        simp [alookup, dictInsert, h₂]
      · simp only [dictInsert, if_neg hk]
        by_cases hk₁ : k₂ = k₁
        · subst hk₁; simp [alookup]
        · simp [alookup, hk₁, ih]

theorem dictInsert_keys {α β : Type} [DecidableEq α] (l : List (α × β)) (k : α) (v : β) :
    (dictInsert l k v).map Prod.fst
      = if k ∈ l.map Prod.fst then l.map Prod.fst else l.map Prod.fst ++ [k] := by
  induction l with
  | nil => simp [dictInsert]
  | cons p t ih =>
      obtain ⟨k₁, v₁⟩ := p
      by_cases hk : k₁ = k
      · subst hk; simp [dictInsert]
      · have hk₂ : k ≠ k₁ := fun e => hk e.symm
        simp only [dictInsert, if_neg hk, List.map_cons, List.mem_cons, ih]
        by_cases hmem : k ∈ t.map Prod.fst
        · simp [hmem, hk₂]
        · simp [hmem, hk₂]

theorem nodup_dictInsert {α β : Type} [DecidableEq α] (l : List (α × β)) (k : α) (v : β)
    (h : (l.map Prod.fst).Nodup) : ((dictInsert l k v).map Prod.fst).Nodup := by
  rw [dictInsert_keys]
  by_cases hmem : k ∈ l.map Prod.fst
  · simpa [hmem] using h
  · simpa [hmem] using List.Nodup.append h (List.nodup_singleton k) (by simpa using hmem)

theorem dictErase_sublist {α β : Type} [DecidableEq α] (l : List (α × β)) (k : α) :
    List.Sublist (dictErase l k) l := by
  induction l with
  | nil => simp [dictErase]
  | cons p t ih =>
      obtain ⟨k₁, v₁⟩ := p
      by_cases hk : k₁ = k
      · simpa [dictErase, hk] using List.sublist_cons_self (k₁, v₁) t
      · simpa [dictErase, hk] using List.Sublist.cons₂ (k₁, v₁) ih

theorem nodup_dictErase {α β : Type} [DecidableEq α] (l : List (α × β)) (k : α)
    (h : (l.map Prod.fst).Nodup) : ((dictErase l k).map Prod.fst).Nodup :=
  ((dictErase_sublist l k).map Prod.fst).nodup h

theorem alookup_dictErase_self {α β : Type} [DecidableEq α] (l : List (α × β)) (k : α)
    (h : (l.map Prod.fst).Nodup) : alookup k (dictErase l k) = none := by
  induction l with
  | nil => simp [alookup, dictErase]
  | cons p t ih =>
      obtain ⟨k₁, v₁⟩ := p
      simp only [List.map_cons, List.nodup_cons] at h
      by_cases hk : k₁ = k
      · subst hk
        simp only [dictErase, if_pos rfl]
        rw [alookup_eq_none_iff]
        exact h.1
      · simp [dictErase, alookup, hk, ih h.2]

theorem alookup_dictErase_ne {α β : Type} [DecidableEq α] (l : List (α × β)) (k k₁ : α)
    (h : k₁ ≠ k) : alookup k₁ (dictErase l k) = alookup k₁ l := by
  have h₂ : k ≠ k₁ := fun e => h e.symm
  induction l with
  | nil => simp [dictErase]
  | cons p t ih =>
      obtain ⟨k₂, v₂⟩ := p
      by_cases hk : k₂ = k
      · subst hk
        simp [dictErase, alookup, h₂]
      · by_cases hk₁ : k₂ = k₁
        · subst hk₁; simp [dictErase, hk, alookup]
        · simp [dictErase, hk, alookup, hk₁, ih]

theorem alookup_dictErase_some {α β : Type} [DecidableEq α] (l : List (α × β)) (k k₁ : α)
    (v : β) (hn : (l.map Prod.fst).Nodup) (h : alookup k₁ (dictErase l k) = some v) :
    alookup k₁ l = some v := by
  by_cases hk : k₁ = k
  · subst hk
    rw [alookup_dictErase_self l k₁ hn] at h
    exact absurd h (by simp)
  · rwa [alookup_dictErase_ne l k k₁ hk] at h

/-! ## Fold variants over a footprint -/

theorem alookup_foldl_insert_keep {α β : Type} [DecidableEq α] (fp : List α) (v : β)
    (l : List (α × β)) (c : α) (h : alookup c l = some v) :
    alookup c (fp.foldl (fun a x => dictInsert a x v) l) = some v := by
  induction fp generalizing l with
  | nil => simpa using h
  | cons x t ih =>
      simp only [List.foldl_cons]
      apply ih
      by_cases hx : c = x
      · subst hx; simp [alookup_dictInsert_self]
      · rw [alookup_dictInsert_ne _ _ _ _ hx]; exact h

theorem alookup_foldl_insert_mem {α β : Type} [DecidableEq α] (fp : List α) (v : β)
    (l : List (α × β)) (c : α) (h : c ∈ fp) :
    alookup c (fp.foldl (fun a x => dictInsert a x v) l) = some v := by
  induction fp generalizing l with
  | nil => simp at h
  | cons x t ih =>
      simp only [List.foldl_cons]
      rcases List.mem_cons.mp h with hx | hx
      · subst hx
        by_cases ht : c ∈ t
        · exact ih _ ht
        · apply alookup_foldl_insert_keep
          simp [alookup_dictInsert_self]
      · exact ih _ hx

theorem alookup_foldl_insert_notMem {α β : Type} [DecidableEq α] (fp : List α) (v : β)
    (l : List (α × β)) (c : α) (h : c ∉ fp) :
    alookup c (fp.foldl (fun a x => dictInsert a x v) l) = alookup c l := by
  induction fp generalizing l with
  | nil => simp
  | cons x t ih =>
      simp only [List.mem_cons, not_or] at h
      simp only [List.foldl_cons]
      rw [ih _ h.2, alookup_dictInsert_ne _ _ _ _ h.1]

theorem nodup_foldl_insert {α β : Type} [DecidableEq α] (fp : List α) (v : β)
    (l : List (α × β)) (h : (l.map Prod.fst).Nodup) :
    (((fp.foldl (fun a x => dictInsert a x v) l)).map Prod.fst).Nodup := by
  induction fp generalizing l with
  | nil => simpa using h
  | cons x t ih =>
      simp only [List.foldl_cons]
      exact ih _ (nodup_dictInsert _ _ _ h)

theorem alookup_foldl_erase_none {α β : Type} [DecidableEq α] (fp : List α)
    (l : List (α × β)) (c : α) (h : alookup c l = none) :
    alookup c (fp.foldl (fun a x => dictErase a x) l) = none := by
  induction fp generalizing l with
  | nil => simpa using h
  | cons x t ih =>
      simp only [List.foldl_cons]
      apply ih
      by_cases hx : c = x
      · subst hx
        rw [alookup_eq_none_iff] at h ⊢
        intro hc
        exact h (((dictErase_sublist l c).map Prod.fst).mem hc)
      · rwa [alookup_dictErase_ne _ _ _ hx]

theorem nodup_foldl_erase {α β : Type} [DecidableEq α] (fp : List α)
    (l : List (α × β)) (h : (l.map Prod.fst).Nodup) :
    (((fp.foldl (fun a x => dictErase a x) l)).map Prod.fst).Nodup := by
  induction fp generalizing l with
  | nil => simpa using h
  | cons x t ih =>
      simp only [List.foldl_cons]
      exact ih _ (nodup_dictErase _ _ h)

theorem alookup_foldl_erase_mem {α β : Type} [DecidableEq α] (fp : List α)
    (l : List (α × β)) (c : α) (hn : (l.map Prod.fst).Nodup) (h : c ∈ fp) :
    alookup c (fp.foldl (fun a x => dictErase a x) l) = none := by
  induction fp generalizing l with
  | nil => simp at h
  | cons x t ih =>
      simp only [List.foldl_cons]
      rcases List.mem_cons.mp h with hx | hx
      · subst hx
        by_cases ht : c ∈ t
        · exact ih _ (nodup_dictErase _ _ hn) ht
        · exact alookup_foldl_erase_none _ _ _ (alookup_dictErase_self _ _ hn)
      · exact ih _ (nodup_dictErase _ _ hn) hx

theorem alookup_foldl_erase_notMem {α β : Type} [DecidableEq α] (fp : List α)
    (l : List (α × β)) (c : α) (h : c ∉ fp) :
    alookup c (fp.foldl (fun a x => dictErase a x) l) = alookup c l := by
  induction fp generalizing l with
  | nil => simp
  | cons x t ih =>
      simp only [List.mem_cons, not_or] at h
      simp only [List.foldl_cons]
      rw [ih _ h.2, alookup_dictErase_ne _ _ _ h.1]

theorem alookup_foldl_erase_some {α β : Type} [DecidableEq α] (fp : List α)
    (l : List (α × β)) (c : α) (v : β) (hn : (l.map Prod.fst).Nodup)
    (h : alookup c (fp.foldl (fun a x => dictErase a x) l) = some v) :
    alookup c l = some v ∧ c ∉ fp := by
  by_cases hc : c ∈ fp
  · rw [alookup_foldl_erase_mem _ _ _ hn hc] at h
    exact absurd h (by simp)
  · rw [alookup_foldl_erase_notMem _ _ _ hc] at h
    exact ⟨h, hc⟩

/-! ## SceneGrid (src/blenpc/engine/grid_manager.py, grid_object.py) -/

/-- A grid cell: the (x, y, z) integer tuple used as dict key. -/
abbrev Cell : Type := ℤ × ℤ × ℤ

/-- Models an IGridObject (grid_object.py, class IGridObject): the protocol
fields consumed by SceneGrid and its serializer, with `footprint` holding the
(fixed) result of get_footprint(). -/
structure GridObject where
  name : String
  grid_pos : Cell
  grid_size : ℤ × ℤ × ℤ
  snap_mode : String
  tags : List String
  footprint : List Cell
deriving DecidableEq

/-- GridObjectMixin.get_footprint (grid_object.py lines 82-93): the full AABB
cell set, one cell per (dx, dy, dz) with 0 ≤ d < size. -/
def mixinFootprint (pos : Cell) (size : ℤ × ℤ × ℤ) : List Cell :=
  (List.range size.1.toNat).flatMap (fun dx =>
    (List.range size.2.1.toNat).flatMap (fun dy =>
      (List.range size.2.2.toNat).map (fun dz =>
        (pos.1 + dx, pos.2.1 + dy, pos.2.2 + dz))))

/-- SceneGrid state (grid_manager.py): the _cells occupancy dict and the
_objects index dict, both insertion-ordered. -/
structure SceneGrid where
  cells : List (Cell × String)
  objects : List (String × GridObject)
deriving DecidableEq

/-- SceneGrid.__init__: empty scene grid. -/
def SceneGrid.empty : SceneGrid := ⟨[], []⟩

/-- Error raised by SceneGrid.place (grid_manager.py raises ValueError when
the object name is already registered). -/
inductive PlaceError where
  | duplicateName (name : String)
deriving DecidableEq

/-- SceneGrid.place (grid_manager.py lines 45-73): raise on duplicate name,
return false on footprint collision, otherwise insert every footprint cell
and register the object. -/
def place (g : SceneGrid) (o : GridObject) : Except PlaceError (SceneGrid × Bool) :=
  if (alookup o.name g.objects).isSome then
    .error (.duplicateName o.name)
  else if o.footprint.any (fun c => (alookup c g.cells).isSome) then
    .ok (g, false)
  else
    .ok (⟨o.footprint.foldl (fun cs c => dictInsert cs c o.name) g.cells,
          dictInsert g.objects o.name o⟩, true)

/-- SceneGrid.remove (grid_manager.py lines 75-97). -/
def removeObject (g : SceneGrid) (name : String) : SceneGrid × Bool :=
  match alookup name g.objects with
  | none => (g, false)
  | some o =>
      (⟨o.footprint.foldl (fun cs c => dictErase cs c) g.cells,
        dictErase g.objects name⟩, true)

/-- SceneGrid.get_at (grid_manager.py lines 99-109); the source converts the
GridPos argument to its integer tuple first, we take the tuple directly. -/
def get_at (g : SceneGrid) (pos : Cell) : Option String := alookup pos g.cells

/-- One mutation of the scene grid: a place or a remove call. -/
inductive SceneOp where
  | placeObj (o : GridObject)
  | removeObj (name : String)

/-- State after one call. A raised DuplicateName propagates to the caller
before any mutation, so the grid state it leaves behind is the input state. -/
def applyOp (g : SceneGrid) : SceneOp → SceneGrid
  | .placeObj o =>
      match place g o with
      | .ok (g₁, _) => g₁
      | .error _ => g
  | .removeObj n => (removeObject g n).1

/-- State after a sequence of place/remove calls starting from the empty grid. -/
def runOps (ops : List SceneOp) : SceneGrid := ops.foldl applyOp SceneGrid.empty

/-- The mutual-consistency invariant of the two SceneGrid maps: every
registered object is keyed by its name and has all its footprint cells mapped
to that name, and every mapped cell belongs to the footprint of exactly one
registered object. -/
def Consistent (g : SceneGrid) : Prop :=
  (∀ n o, alookup n g.objects = some o →
      o.name = n ∧ ∀ c ∈ o.footprint, alookup c g.cells = some o.name)
  ∧ (∀ c n, alookup c g.cells = some n →
      ∃ o, alookup n g.objects = some o ∧ c ∈ o.footprint
        ∧ ∀ n₁ o₁, alookup n₁ g.objects = some o₁ → c ∈ o₁.footprint → n₁ = n)

/-- Well-formedness carried through the induction: both dicts have distinct
keys, and the consistency invariant holds. -/
def GridWF (g : SceneGrid) : Prop :=
  (g.cells.map Prod.fst).Nodup ∧ (g.objects.map Prod.fst).Nodup ∧ Consistent g

theorem gridWF_empty : GridWF SceneGrid.empty := by
  refine ⟨List.nodup_nil, List.nodup_nil, ?_, ?_⟩
  · intro n o h; exact absurd h (by simp [alookup, SceneGrid.empty])
  · intro c n h; exact absurd h (by simp [alookup, SceneGrid.empty])

theorem gridWF_place (g : SceneGrid) (o : GridObject) (h : GridWF g) :
    GridWF (applyOp g (.placeObj o)) := by
  obtain ⟨hcn, hon, hca, hcb⟩ := h
  by_cases hdup : (alookup o.name g.objects).isSome
  · simp only [applyOp, place, if_pos hdup]
    exact ⟨hcn, hon, hca, hcb⟩
  · by_cases hcol : o.footprint.any (fun c => (alookup c g.cells).isSome)
    · simp only [applyOp, place, if_neg hdup, if_pos hcol]
      exact ⟨hcn, hon, hca, hcb⟩
    · simp only [applyOp, place, if_neg hdup, if_neg hcol]
      have hdup₁ : alookup o.name g.objects = none := by
        cases he : alookup o.name g.objects with
        | none => rfl
        | some _ => rw [he] at hdup; simp at hdup
      have hfree : ∀ c ∈ o.footprint, alookup c g.cells = none := by
        intro c hc
        cases he : alookup c g.cells with
        | none => rfl
        | some _ =>
            exfalso; apply hcol
            rw [List.any_eq_true]
            exact ⟨c, hc, by simp [he]⟩
      refine ⟨nodup_foldl_insert _ _ _ hcn, nodup_dictInsert _ _ _ hon, ?_, ?_⟩
      · intro n o₁ hlk
        by_cases hn : n = o.name
        · subst hn
          rw [alookup_dictInsert_self] at hlk
          obtain rfl : o = o₁ := by simpa using hlk
          exact ⟨rfl, fun c hc => alookup_foldl_insert_mem _ _ _ _ hc⟩
        · rw [alookup_dictInsert_ne _ _ _ _ hn] at hlk
          obtain ⟨hname, hcells⟩ := hca n o₁ hlk
          refine ⟨hname, fun c hc => ?_⟩
          have hnotin : c ∉ o.footprint := by
            intro hin
            have h₂ := hcells c hc
            rw [hfree c hin] at h₂
            exact absurd h₂ (by simp)
          rw [alookup_foldl_insert_notMem _ _ _ _ hnotin]
          exact hcells c hc
      · intro c n hlk
        by_cases hcfp : c ∈ o.footprint
        · rw [alookup_foldl_insert_mem _ _ _ _ hcfp] at hlk
          obtain rfl : o.name = n := by simpa using hlk
          refine ⟨o, alookup_dictInsert_self _ _ _, hcfp, ?_⟩
          intro n₁ o₁ hlk₁ hmem₁
          by_cases hn₁ : n₁ = o.name
          · exact hn₁
          · rw [alookup_dictInsert_ne _ _ _ _ hn₁] at hlk₁
            obtain ⟨_, hcells₁⟩ := hca n₁ o₁ hlk₁
            have := hcells₁ c hmem₁
            rw [hfree c hcfp] at this
            exact absurd this (by simp)
        · rw [alookup_foldl_insert_notMem _ _ _ _ hcfp] at hlk
          obtain ⟨o₂, hlk₂, hmem₂, huniq₂⟩ := hcb c n hlk
          have hnon : n ≠ o.name := by
            intro he; rw [he, hdup₁] at hlk₂; exact absurd hlk₂ (by simp)
          refine ⟨o₂, ?_, hmem₂, ?_⟩
          · rw [alookup_dictInsert_ne _ _ _ _ hnon]; exact hlk₂
          · intro n₁ o₁ hlk₁ hmem₁
            by_cases hn₁ : n₁ = o.name
            · subst hn₁
              rw [alookup_dictInsert_self] at hlk₁
              obtain rfl : o = o₁ := by simpa using hlk₁
              exact absurd hmem₁ hcfp
            · rw [alookup_dictInsert_ne _ _ _ _ hn₁] at hlk₁
              exact huniq₂ n₁ o₁ hlk₁ hmem₁

theorem gridWF_remove (g : SceneGrid) (n : String) (h : GridWF g) :
    GridWF (applyOp g (.removeObj n)) := by
  obtain ⟨hcn, hon, hca, hcb⟩ := h
  cases hre : alookup n g.objects with
  | none => simpa [applyOp, removeObject, hre] using ⟨hcn, hon, hca, hcb⟩
  | some o =>
      simp only [applyOp, removeObject, hre]
      refine ⟨nodup_foldl_erase _ _ hcn, nodup_dictErase _ _ hon, ?_, ?_⟩
      · intro n₁ o₁ hlk
        have hn₁ : n₁ ≠ n := by
          intro he; subst he
          rw [alookup_dictErase_self _ _ hon] at hlk
          exact absurd hlk (by simp)
        rw [alookup_dictErase_ne _ _ _ hn₁] at hlk
        obtain ⟨hname, hcells⟩ := hca n₁ o₁ hlk
        refine ⟨hname, fun c hc => ?_⟩
        have hnotin : c ∉ o.footprint := by
          intro hin
          obtain ⟨hname₀, hcells₀⟩ := hca n o hre
          have h₁ := hcells₀ c hin
          have h₂ := hcells c hc
          rw [h₁] at h₂
          have : o.name = o₁.name := by simpa using h₂
          exact hn₁ (by rw [← hname, ← hname₀, this])
        rw [alookup_foldl_erase_notMem _ _ _ hnotin]
        exact hcells c hc
      · intro c n₁ hlk
        obtain ⟨hlk₀, hcfp⟩ := alookup_foldl_erase_some _ _ _ _ hcn hlk
        obtain ⟨o₂, hlk₂, hmem₂, huniq₂⟩ := hcb c n₁ hlk₀
        have hn₁ : n₁ ≠ n := by
          intro he; subst he
          rw [hre] at hlk₂
          obtain rfl : o = o₂ := by simpa using hlk₂
          exact hcfp hmem₂
        refine ⟨o₂, ?_, hmem₂, ?_⟩
        · rw [alookup_dictErase_ne _ _ _ hn₁]; exact hlk₂
        · intro n₂ o₃ hlk₃ hmem₃
          have hn₂ : n₂ ≠ n := by
            intro he; subst he
            rw [alookup_dictErase_self _ _ hon] at hlk₃
            exact absurd hlk₃ (by simp)
          rw [alookup_dictErase_ne _ _ _ hn₂] at hlk₃
          exact huniq₂ n₂ o₃ hlk₃ hmem₃

theorem gridWF_foldl (ops : List SceneOp) (g : SceneGrid) (h : GridWF g) :
    GridWF (ops.foldl applyOp g) := by
  induction ops generalizing g with
  | nil => simpa using h
  | cons op t ih =>
      simp only [List.foldl_cons]
      apply ih
      cases op with
      | placeObj o => exact gridWF_place g o h
      | removeObj n => exact gridWF_remove g n h

/-! ## Claim C3 -/

/-- C3: starting from the empty SceneGrid, every sequence of place and remove
calls (objects carry fixed footprints) preserves the mutual-consistency
invariant of the cells map and the objects map. -/
theorem sceneGrid_consistent_runOps (ops : List SceneOp) : Consistent (runOps ops) :=
  (gridWF_foldl ops SceneGrid.empty gridWF_empty).2.2

/-! ## Claim C2 -/

/-- C2: place raises DuplicateName exactly when the name is registered, returns
false (leaving the grid unchanged) when some footprint cell is occupied, and
otherwise returns true with every footprint cell mapped to the object's name;
in the raising and false cases the grid state after the call equals the state
before it. -/
theorem place_spec (g : SceneGrid) (o : GridObject) :
    ((alookup o.name g.objects).isSome = true →
      place g o = .error (.duplicateName o.name) ∧ applyOp g (.placeObj o) = g)
    ∧ (alookup o.name g.objects = none →
        (∃ c ∈ o.footprint, (alookup c g.cells).isSome = true) →
        place g o = .ok (g, false) ∧ applyOp g (.placeObj o) = g)
    ∧ (alookup o.name g.objects = none →
        (∀ c ∈ o.footprint, alookup c g.cells = none) →
        ∃ g₁, place g o = .ok (g₁, true) ∧ ∀ c ∈ o.footprint, get_at g₁ c = some o.name) := by
  refine ⟨?_, ?_, ?_⟩
  · intro hdup
    constructor
    · simp [place, hdup]
    · simp [applyOp, place, hdup]
  · intro hdup hcol
    have hdup₁ : ¬ (alookup o.name g.objects).isSome = true := by simp [hdup]
    have hcol₁ : o.footprint.any (fun c => (alookup c g.cells).isSome) = true := by
      rw [List.any_eq_true]
      obtain ⟨c, hc, hs⟩ := hcol
      exact ⟨c, hc, hs⟩
    constructor
    · simp [place, hdup₁, hcol₁]
    · simp [applyOp, place, hdup₁, hcol₁]
  · intro hdup hfree
    have hdup₁ : ¬ (alookup o.name g.objects).isSome = true := by simp [hdup]
    have hcol₁ : ¬ o.footprint.any (fun c => (alookup c g.cells).isSome) = true := by
      rw [List.any_eq_true]
      rintro ⟨c, hc, hs⟩
      rw [hfree c hc] at hs
      simp at hs
    refine ⟨⟨o.footprint.foldl (fun cs c => dictInsert cs c o.name) g.cells,
        dictInsert g.objects o.name o⟩, ?_, ?_⟩
    · simp [place, hdup₁, hcol₁]
    · intro c hc
      exact alookup_foldl_insert_mem _ _ _ _ hc

/-- C2 witness: placing a 1x1x2 wall on the empty grid succeeds and maps both
footprint cells to the wall's name. -/
theorem place_spec_witness :
    ∃ g₁, place SceneGrid.empty
        ⟨"wall_01", (0, 0, 0), (1, 1, 2), "meso", ["arch_wall"],
          mixinFootprint (0, 0, 0) (1, 1, 2)⟩ = .ok (g₁, true)
      ∧ ∀ c ∈ mixinFootprint (0, 0, 0) (1, 1, 2), get_at g₁ c = some "wall_01" :=
  (place_spec SceneGrid.empty
      ⟨"wall_01", (0, 0, 0), (1, 1, 2), "meso", ["arch_wall"],
        mixinFootprint (0, 0, 0) (1, 1, 2)⟩).2.2
    rfl (by decide)

/-! ## Data model records (datamodel.py is not under src/) -/

/-- Modelled from the spec: the Rect record of the missing datamodel.py —
axis-aligned rectangle (min_x, min_y, max_x, max_y) in meters (spec section 3). -/
structure Rect where
  min_x : ℚ
  min_y : ℚ
  max_x : ℚ
  max_y : ℚ
deriving DecidableEq

/-- Modelled from the spec: the Room record of the missing datamodel.py —
a rect plus floor index and room id (spec section 3). -/
structure Room where
  rect : Rect
  floor_index : ℤ
  id : ℤ
deriving DecidableEq

/-- Modelled from the spec: the BuildingSpec record of the missing
datamodel.py (spec sections 3 and 6). validate_mesh reads only floors. -/
structure BuildingSpec where
  width : ℚ
  depth : ℚ
  floors : ℤ
  seed : ℤ
  roof_type : String
deriving DecidableEq

/-! ## Geometry authority (src/blenpc/mf_v5/geometry_authority.py) -/

/-- to_int_grid (geometry_authority.py lines 9-11): int(round(value / MICRO_UNIT)). -/
def to_int_grid (value : ℚ) : ℤ := pyRound (value / MICRO_UNIT)

/-- from_int_grid (geometry_authority.py lines 13-15). -/
def from_int_grid (int_value : ℤ) : ℚ := (int_value : ℚ) * MICRO_UNIT

/-- quantize (geometry_authority.py lines 17-19). -/
def quantize (value : ℚ) : ℚ := from_int_grid (to_int_grid value)

/-- quantize_room (geometry_authority.py lines 21-28). -/
def quantize_room (room_rect : Rect) : Rect :=
  ⟨quantize room_rect.min_x, quantize room_rect.min_y,
   quantize room_rect.max_x, quantize room_rect.max_y⟩

/-- The three distinct ValueError exits of robust_union
(geometry_authority.py lines 37, 51 and 68). -/
inductive UnionError where
  | emptyLayout
  | noValidRooms
  | unionFailed (geom_type : String)
deriving DecidableEq

/-- Outcome of the checks robust_union performs before the union itself. -/
inductive UnionPre where
  | failed (e : UnionError)
  | toUnion (polys : List Rect)
deriving DecidableEq

/-- robust_union (geometry_authority.py lines 30-70) up to the call into the
external geometry library: the empty-input check, per-room quantization, and
the zero-area filter with its own error. Steps 3-8 (set_precision,
unary_union, buffer fallbacks) run inside the external library; both error
exits modelled here are decided before any union result exists. -/
def robust_union_checks (rooms : List Room) : UnionPre :=
  if rooms.isEmpty then .failed .emptyLayout
  else
    let rooms_q := rooms.map (fun r => quantize_room r.rect)
    let polys := rooms_q.filter (fun r =>
      decide (r.min_x < r.max_x) && decide (r.min_y < r.max_y))
    if polys.isEmpty then .failed .noValidRooms
    else .toUnion polys

/-! ## Claim C9 -/

/-- C9: a non-empty room list whose rectangles all have zero area after
quantization makes robust_union raise the dedicated no-valid-rooms error,
which is a different error from EmptyLayout (empty input) and from
UnionFailed (non-polygonal union result). -/
theorem robust_union_all_zero_area (rooms : List Room) (hne : rooms ≠ [])
    (hz : ∀ r ∈ rooms, (quantize_room r.rect).max_x ≤ (quantize_room r.rect).min_x
        ∨ (quantize_room r.rect).max_y ≤ (quantize_room r.rect).min_y) :
    robust_union_checks rooms = .failed .noValidRooms
    ∧ UnionError.noValidRooms ≠ UnionError.emptyLayout
    ∧ ∀ s, UnionError.noValidRooms ≠ UnionError.unionFailed s := by
  refine ⟨?_, by simp, by simp⟩
  have hne₁ : rooms.isEmpty = false := by
    cases rooms with
    | nil => exact absurd rfl hne
    | cons r t => rfl
  have hfil : (rooms.map (fun r => quantize_room r.rect)).filter
      (fun r => decide (r.min_x < r.max_x) && decide (r.min_y < r.max_y)) = [] := by
    rw [List.filter_eq_nil_iff]
    intro q hq
    obtain ⟨r, hr, rfl⟩ := List.mem_map.mp hq
    rcases hz r hr with hx | hy
    · simp only [Bool.and_eq_true, decide_eq_true_eq, not_and]
      intro hlt
      exact absurd hlt (not_lt.mpr hx)
    · simp only [Bool.and_eq_true, decide_eq_true_eq, not_and]
      intro _
      exact not_lt.mpr hy
  simp [robust_union_checks, hne₁, hfil]

/-- C9 witness: a single room whose width collapses to zero under
MICRO_UNIT quantization. -/
theorem robust_union_all_zero_area_witness :
    robust_union_checks [⟨⟨0, 0, 1/100, 1⟩, 0, 1⟩] = .failed .noValidRooms :=
  (robust_union_all_zero_area [⟨⟨0, 0, 1/100, 1⟩, 0, 1⟩] (by simp)
    (by
      intro r hr
      simp only [List.mem_singleton] at hr
      subst hr
      left
      norm_num [quantize_room, quantize, to_int_grid, from_int_grid, pyRound, MICRO_UNIT])).1

/-! ## Mesh validator (src/blenpc/mf_v5/validator.py) -/

/-- Models a Blender bmesh vertex as read by validate_mesh: only co.z. -/
structure BMVert where
  co_z : ℚ
deriving DecidableEq

/-- Models a Blender bmesh edge as read by validate_mesh: the is_manifold
flag and the calc_length() result. -/
structure BMEdge where
  is_manifold : Bool
  length : ℚ
deriving DecidableEq

/-- Models a Blender bmesh face as read by validate_mesh: the calc_area()
result. -/
structure BMFace where
  area : ℚ
deriving DecidableEq

/-- Models the Blender bmesh as read by validate_mesh. -/
structure BMesh where
  verts : List BMVert
  edges : List BMEdge
  faces : List BMFace
deriving DecidableEq

/-- The error kinds of validate_mesh, in place of its message strings; each
keeps the data interpolated into the message. -/
inductive VError where
  | nullMesh
  | nonManifold (count : ℕ)
  | zeroArea (count : ℕ)
  | roofGap (expected : ℚ) (count : ℕ)
deriving DecidableEq

/-- The warning kinds of validate_mesh. -/
inductive VWarn where
  | shortEdge (count : ℕ)
deriving DecidableEq

/-- Result of mesh validation (validator.py, class ValidationResult). -/
structure ValidationResult where
  passed : Bool
  errors : List VError
  warnings : List VWarn
deriving DecidableEq

/-- The roof-gap vertex filter of validate_mesh (validator.py line 40):
vertices whose Z deviates from the expected roof height by more than 1e-4
and less than 0.1. -/
def roof_gap_verts (verts : List BMVert) (expected : ℚ) : List BMVert :=
  verts.filter (fun v =>
    decide (|v.co_z - expected| < 1/10) && decide (|v.co_z - expected| > 1/10000))

/-- validate_mesh (validator.py lines 14-47): null check, non-manifold edges,
zero-area faces, short-edge warning, and the roof-wall gap check against
floor_elevations(spec.floors - 1).wall_top_z. -/
def validate_mesh (bm : Option BMesh) (spec : BuildingSpec) : ValidationResult :=
  match bm with
  | none => ⟨false, [.nullMesh], []⟩
  | some bm =>
      let nm := (bm.edges.filter (fun e => !e.is_manifold)).length
      let za := (bm.faces.filter (fun f => decide (f.area < 1/100000000))).length
      let sh := (bm.edges.filter (fun e => decide (e.length < GRID * (1/10)))).length
      let expected := (floor_elevations (spec.floors - 1)).wall_top_z
      let rg := (roof_gap_verts bm.verts expected).length
      let errors := (if nm ≠ 0 then [VError.nonManifold nm] else [])
        ++ (if za ≠ 0 then [VError.zeroArea za] else [])
        ++ (if rg ≠ 0 then [VError.roofGap expected rg] else [])
      let warnings := if sh ≠ 0 then [VWarn.shortEdge sh] else []
      ⟨errors.isEmpty, errors, warnings⟩

/-! ## Claim C10 -/

/-- C10: the roof-gap check flags a vertex exactly when its Z deviation from
floor_elevations(spec.floors - 1).wall_top_z is strictly between 1e-4 and
0.1; in particular a mesh all of whose vertices deviate by 0.1 or more
produces no roof-gap error at all. -/
theorem roof_gap_band_only (bm : BMesh) (spec : BuildingSpec) :
    (∀ v ∈ bm.verts,
      (v ∈ roof_gap_verts bm.verts (floor_elevations (spec.floors - 1)).wall_top_z
        ↔ 1/10000 < |v.co_z - (floor_elevations (spec.floors - 1)).wall_top_z|
          ∧ |v.co_z - (floor_elevations (spec.floors - 1)).wall_top_z| < 1/10))
    ∧ ((∀ v ∈ bm.verts, 1/10 ≤ |v.co_z - (floor_elevations (spec.floors - 1)).wall_top_z|) →
        ∀ q k, VError.roofGap q k ∉ (validate_mesh (some bm) spec).errors) := by
  constructor
  · intro v hv
    simp only [roof_gap_verts, List.mem_filter, Bool.and_eq_true, decide_eq_true_eq, gt_iff_lt]
    constructor
    · rintro ⟨_, h₁, h₂⟩; exact ⟨h₂, h₁⟩
    · rintro ⟨h₁, h₂⟩; exact ⟨hv, h₂, h₁⟩
  · intro hfar q k
    have hrg : roof_gap_verts bm.verts (floor_elevations (spec.floors - 1)).wall_top_z = [] := by
      rw [roof_gap_verts, List.filter_eq_nil_iff]
      intro v hv
      simp only [Bool.and_eq_true, decide_eq_true_eq, not_and]
      intro hlt
      exact absurd hlt (not_lt.mpr (hfar v hv))
    simp only [validate_mesh, hrg, List.length_nil, ne_eq, not_true_eq_false,
      if_false, if_neg, List.append_nil]
    intro hmem
    split_ifs at hmem <;> simp_all

/-- C10 witness: a mesh whose only vertex sits 97 m above the expected roof
height of a one-floor building raises no roof-gap error. -/
theorem roof_gap_band_only_witness :
    VError.roofGap 3 1 ∉ (validate_mesh (some ⟨[⟨100⟩], [], []⟩) ⟨10, 8, 1, 42, "flat"⟩).errors :=
  (roof_gap_band_only ⟨[⟨100⟩], [], []⟩ ⟨10, 8, 1, 42, "flat"⟩).2
    (by
      intro v hv
      simp only [List.mem_singleton] at hv
      subst hv
      norm_num [floor_elevations, STORY_HEIGHT, WALL_HEIGHT])
    3 1

/-! ## Edge classifier (src/blenpc/mf_v5/edge_classifier.py) -/

/-- EdgeType (edge_classifier.py lines 8-10). -/
inductive EdgeType where
  | EXTERIOR
  | INTERIOR
deriving DecidableEq

/-- ClassifiedEdge (edge_classifier.py lines 12-16). -/
structure ClassifiedEdge where
  p1 : ℚ × ℚ
  p2 : ℚ × ℚ
  edge_type : EdgeType
deriving DecidableEq

/-- canonical_edge (edge_classifier.py lines 18-22): the pair of quantized
endpoints sorted in Python tuple (lexicographic) order. -/
def canonical_edge (p1 p2 : ℚ × ℚ) : (ℚ × ℚ) × (ℚ × ℚ) :=
  let q1 : ℚ × ℚ := (quantize p1.1, quantize p1.2)
  let q2 : ℚ × ℚ := (quantize p2.1, quantize p2.2)
  if q1.1 < q2.1 ∨ (q1.1 = q2.1 ∧ q1.2 ≤ q2.2) then (q1, q2) else (q2, q1)

/-- The four directed room edges (corners[i], corners[(i+1) % 4]) iterated by
classify_edges (edge_classifier.py lines 44-50), in CCW order. -/
def roomEdgePairs (r : Rect) : List ((ℚ × ℚ) × (ℚ × ℚ)) :=
  [((r.min_x, r.min_y), (r.max_x, r.min_y)),
   ((r.max_x, r.min_y), (r.max_x, r.max_y)),
   ((r.max_x, r.max_y), (r.min_x, r.max_y)),
   ((r.min_x, r.max_y), (r.min_x, r.min_y))]

/-- Models the external geometry library call boundary.covers(LineString
[p1, p2]) (edge_classifier.py line 62) for the case this pipeline produces:
the footprint polygon is an axis-aligned rectangle, whose exterior ring
covers a segment iff the segment lies within one of the four sides. -/
def rectBoundaryCovers (fp : Rect) (p1 p2 : ℚ × ℚ) : Bool :=
  (decide (p1.1 = fp.min_x) && decide (p2.1 = fp.min_x)
    && decide (fp.min_y ≤ p1.2) && decide (p1.2 ≤ fp.max_y)
    && decide (fp.min_y ≤ p2.2) && decide (p2.2 ≤ fp.max_y))
  || (decide (p1.1 = fp.max_x) && decide (p2.1 = fp.max_x)
    && decide (fp.min_y ≤ p1.2) && decide (p1.2 ≤ fp.max_y)
    && decide (fp.min_y ≤ p2.2) && decide (p2.2 ≤ fp.max_y))
  || (decide (p1.2 = fp.min_y) && decide (p2.2 = fp.min_y)
    && decide (fp.min_x ≤ p1.1) && decide (p1.1 ≤ fp.max_x)
    && decide (fp.min_x ≤ p2.1) && decide (p2.1 ≤ fp.max_x))
  || (decide (p1.2 = fp.max_y) && decide (p2.2 = fp.max_y)
    && decide (fp.min_x ≤ p1.1) && decide (p1.1 ≤ fp.max_x)
    && decide (fp.min_x ≤ p2.1) && decide (p2.1 ≤ fp.max_x))

/-- Loop body of classify_edges (edge_classifier.py lines 49-67): skip an
edge whose canonical key is already in the seen set, otherwise classify it
against the footprint boundary and append it. -/
def classifyStep (fp : Rect)
    (st : List ((ℚ × ℚ) × (ℚ × ℚ)) × List ClassifiedEdge)
    (e : (ℚ × ℚ) × (ℚ × ℚ)) :
    List ((ℚ × ℚ) × (ℚ × ℚ)) × List ClassifiedEdge :=
  let key := canonical_edge e.1 e.2
  if key ∈ st.1 then st
  else
    let etype := if rectBoundaryCovers fp e.1 e.2 then EdgeType.EXTERIOR else EdgeType.INTERIOR
    (key :: st.1, st.2 ++ [⟨e.1, e.2, etype⟩])

/-- classify_edges (edge_classifier.py lines 26-69), room-major and
edge-within-room CCW, with the footprint restricted to the axis-aligned
rectangle case (see rectBoundaryCovers). -/
def classify_edges (fp : Rect) (rooms : List Room) : List ClassifiedEdge :=
  (rooms.foldl (fun st room => (roomEdgePairs room.rect).foldl (classifyStep fp) st)
    ([], [])).2

/-- Closed-rectangle membership, the point set of the geometry library box
used by robust_union. -/
def inRect (r : Rect) (p : ℚ × ℚ) : Prop :=
  r.min_x ≤ p.1 ∧ p.1 ≤ r.max_x ∧ r.min_y ≤ p.2 ∧ p.2 ≤ r.max_y

theorem quantize_zero : quantize 0 = 0 := by
  norm_num [quantize, to_int_grid, from_int_grid, pyRound, MICRO_UNIT]

theorem quantize_two : quantize 2 = 2 := by
  norm_num [quantize, to_int_grid, from_int_grid, pyRound, MICRO_UNIT]

theorem quantize_four : quantize 4 = 4 := by
  norm_num [quantize, to_int_grid, from_int_grid, pyRound, MICRO_UNIT]

theorem classify_edges_two_rooms_eval :
    classify_edges ⟨0, 0, 4, 2⟩ [⟨⟨0, 0, 2, 2⟩, 0, 1⟩, ⟨⟨2, 0, 4, 2⟩, 0, 2⟩]
      = [⟨(0, 0), (2, 0), EdgeType.EXTERIOR⟩,
         ⟨(2, 0), (2, 2), EdgeType.INTERIOR⟩,
         ⟨(2, 2), (0, 2), EdgeType.EXTERIOR⟩,
         ⟨(0, 2), (0, 0), EdgeType.EXTERIOR⟩,
         ⟨(2, 0), (4, 0), EdgeType.EXTERIOR⟩,
         ⟨(4, 0), (4, 2), EdgeType.EXTERIOR⟩,
         ⟨(4, 2), (2, 2), EdgeType.EXTERIOR⟩] := by
  norm_num [classify_edges, classifyStep, roomEdgePairs, canonical_edge,
    rectBoundaryCovers, quantize_zero, quantize_two, quantize_four, Prod.ext_iff]

/-! ## Claim C5 -/

/-- C5: on the two-room layout (0,0,2,2), (2,0,4,2) the union of the two
quantized boxes is exactly the rectangle (0,0,4,2); robust_union's checks
pass both quantized boxes to that union; and classify_edges on the resulting
footprint returns exactly 7 edges, exactly one of which — the shared edge
between (2,0) and (2,2), emitted only once because its canonical key repeats
— is INTERIOR, the other six EXTERIOR. -/
theorem classify_edges_two_rooms :
    (∀ p : ℚ × ℚ, (inRect ⟨0, 0, 2, 2⟩ p ∨ inRect ⟨2, 0, 4, 2⟩ p) ↔ inRect ⟨0, 0, 4, 2⟩ p)
    ∧ robust_union_checks [⟨⟨0, 0, 2, 2⟩, 0, 1⟩, ⟨⟨2, 0, 4, 2⟩, 0, 2⟩]
        = .toUnion [⟨0, 0, 2, 2⟩, ⟨2, 0, 4, 2⟩]
    ∧ (classify_edges ⟨0, 0, 4, 2⟩ [⟨⟨0, 0, 2, 2⟩, 0, 1⟩, ⟨⟨2, 0, 4, 2⟩, 0, 2⟩]).length = 7
    ∧ (classify_edges ⟨0, 0, 4, 2⟩ [⟨⟨0, 0, 2, 2⟩, 0, 1⟩, ⟨⟨2, 0, 4, 2⟩, 0, 2⟩]).filter
        (fun e => decide (e.edge_type = EdgeType.INTERIOR))
        = [⟨(2, 0), (2, 2), EdgeType.INTERIOR⟩]
    ∧ ((classify_edges ⟨0, 0, 4, 2⟩ [⟨⟨0, 0, 2, 2⟩, 0, 1⟩, ⟨⟨2, 0, 4, 2⟩, 0, 2⟩]).filter
        (fun e => decide (e.edge_type = EdgeType.EXTERIOR))).length = 6 := by
  refine ⟨?_, ?_, ?_, ?_, ?_⟩
  · rintro ⟨x, y⟩
    simp only [inRect]
    constructor
    · rintro (⟨h₁, h₂, h₃, h₄⟩ | ⟨h₁, h₂, h₃, h₄⟩) <;>
        exact ⟨by linarith, by linarith, h₃, h₄⟩
    · rintro ⟨h₁, h₂, h₃, h₄⟩
      by_cases hx : x ≤ 2
      · exact Or.inl ⟨h₁, hx, h₃, h₄⟩
      · exact Or.inr ⟨by linarith, h₂, h₃, h₄⟩
  · norm_num [robust_union_checks, quantize_room, quantize_zero, quantize_two, quantize_four]
  · rw [classify_edges_two_rooms_eval]; rfl
  · rw [classify_edges_two_rooms_eval]; rfl
  · rw [classify_edges_two_rooms_eval]; rfl

/-! ## Wall strip builder (src/blenpc/mf_v5/walls.py) -/

noncomputable section

/-- math.hypot with two arguments, as called by inward_normal. -/
def hypot (dx dy : ℝ) : ℝ := Real.sqrt (dx ^ 2 + dy ^ 2)

/-- inward_normal (walls.py lines 13-25): unit normal of the edge, flipped
toward the centroid; zero for edges shorter than 1e-6. -/
def inward_normal (p1 p2 centroid : ℝ × ℝ) : ℝ × ℝ :=
  let dx := p2.1 - p1.1
  let dy := p2.2 - p1.2
  let length := hypot dx dy
  if length < 1/1000000 then (0, 0)
  else
    let nx := -dy / length
    let ny := dx / length
    let mid : ℝ × ℝ := ((p1.1 + p2.1) / 2, (p1.2 + p2.2) / 2)
    let to_center : ℝ × ℝ := (centroid.1 - mid.1, centroid.2 - mid.2)
    if nx * to_center.1 + ny * to_center.2 < 0 then (-nx, -ny) else (nx, ny)

/-- build_wall_strip (walls.py lines 27-65). The classified edge's quantized
endpoints are read as real coordinates. -/
def build_wall_strip (edge : ClassifiedEdge) (elev : FloorElevations)
    (centroid : ℝ × ℝ) : List (ℝ × ℝ × ℝ) × List (ℕ × ℕ × ℕ × ℕ) :=
  let p1 : ℝ × ℝ := ((edge.p1.1 : ℝ), (edge.p1.2 : ℝ))
  let p2 : ℝ × ℝ := ((edge.p2.1 : ℝ), (edge.p2.2 : ℝ))
  let n := inward_normal p1 p2 centroid
  let offs : ℝ × ℝ :=
    if edge.edge_type = EdgeType.EXTERIOR then ((WALL_THICKNESS : ℝ), 0)
    else ((WALL_THICKNESS : ℝ) / 2, (WALL_THICKNESS : ℝ) / 2)
  let p1_out : ℝ × ℝ := (p1.1 - n.1 * offs.2, p1.2 - n.2 * offs.2)
  let p2_out : ℝ × ℝ := (p2.1 - n.1 * offs.2, p2.2 - n.2 * offs.2)
  let p1_in : ℝ × ℝ := (p1.1 + n.1 * offs.1, p1.2 + n.2 * offs.1)
  let p2_in : ℝ × ℝ := (p2.1 + n.1 * offs.1, p2.2 + n.2 * offs.1)
  let z0 : ℝ := (elev.base_z : ℝ)
  let z1 : ℝ := (elev.wall_top_z : ℝ)
  ([(p1_out.1, p1_out.2, z0), (p2_out.1, p2_out.2, z0),
    (p2_in.1, p2_in.2, z0), (p1_in.1, p1_in.2, z0),
    (p1_out.1, p1_out.2, z1), (p2_out.1, p2_out.2, z1),
    (p2_in.1, p2_in.2, z1), (p1_in.1, p1_in.2, z1)],
   [(0, 1, 5, 4), (2, 3, 7, 6), (0, 4, 7, 3), (1, 2, 6, 5), (0, 3, 2, 1), (4, 5, 6, 7)])

end

/-- The offset applied on the outer side of an edge (walls.py lines 32-37):
zero for EXTERIOR, half the wall thickness for INTERIOR. -/
noncomputable def offOut (e : ClassifiedEdge) : ℝ :=
  if e.edge_type = EdgeType.EXTERIOR then 0 else (WALL_THICKNESS : ℝ) / 2

/-- The offset applied on the inner side of an edge (walls.py lines 32-37):
the full wall thickness for EXTERIOR, half for INTERIOR. -/
noncomputable def offIn (e : ClassifiedEdge) : ℝ :=
  if e.edge_type = EdgeType.EXTERIOR then (WALL_THICKNESS : ℝ) else (WALL_THICKNESS : ℝ) / 2

theorem inward_normal_unit (p1 p2 c : ℝ × ℝ)
    (h : ¬ hypot (p2.1 - p1.1) (p2.2 - p1.2) < 1/1000000) :
    (inward_normal p1 p2 c).1 ^ 2 + (inward_normal p1 p2 c).2 ^ 2 = 1 := by
  have hge : (1 : ℝ)/1000000 ≤ hypot (p2.1 - p1.1) (p2.2 - p1.2) := not_lt.mp h
  have hpos : 0 < hypot (p2.1 - p1.1) (p2.2 - p1.2) := lt_of_lt_of_le (by norm_num) hge
  have hne : hypot (p2.1 - p1.1) (p2.2 - p1.2) ≠ 0 := ne_of_gt hpos
  have hsq : hypot (p2.1 - p1.1) (p2.2 - p1.2) ^ 2 = (p2.1 - p1.1) ^ 2 + (p2.2 - p1.2) ^ 2 := by
    rw [hypot]
    exact Real.sq_sqrt (by positivity)
  simp only [inward_normal, if_neg h]
  split_ifs with hflip
  · field_simp
    linarith [hsq]
  · field_simp
    linarith [hsq]

theorem inward_normal_toward_centroid (p1 p2 c : ℝ × ℝ)
    (h : ¬ hypot (p2.1 - p1.1) (p2.2 - p1.2) < 1/1000000) :
    0 ≤ (inward_normal p1 p2 c).1 * (c.1 - (p1.1 + p2.1) / 2)
      + (inward_normal p1 p2 c).2 * (c.2 - (p1.2 + p2.2) / 2) := by
  simp only [inward_normal, if_neg h]
  split_ifs with hflip
  · linarith [hflip]
  · linarith [not_lt.mp hflip]

/-! ## Claim C4 -/

/-- C4: for every classified edge of nonzero length (hypot at least the 1e-6
cull threshold) and every floor elevations, build_wall_strip emits exactly the
8 vertices outer-p1, outer-p2, inner-p2, inner-p1 at base_z followed by the
same four corners at wall_top_z, and exactly the six fixed quads; the corners
use the unit inward normal with offset_out = 0 and offset_in = WALL_THICKNESS
for an EXTERIOR edge (outer corners coinciding with the edge endpoints) and
offset_out = offset_in = WALL_THICKNESS / 2 for an INTERIOR edge. -/
theorem build_wall_strip_spec (e : ClassifiedEdge) (elev : FloorElevations) (c : ℝ × ℝ)
    (h : ¬ hypot ((e.p2.1 : ℝ) - (e.p1.1 : ℝ)) ((e.p2.2 : ℝ) - (e.p1.2 : ℝ)) < 1/1000000) :
    ∃ n : ℝ × ℝ,
      n = inward_normal ((e.p1.1 : ℝ), (e.p1.2 : ℝ)) ((e.p2.1 : ℝ), (e.p2.2 : ℝ)) c
      ∧ n.1 ^ 2 + n.2 ^ 2 = 1
      ∧ 0 ≤ n.1 * (c.1 - ((e.p1.1 : ℝ) + (e.p2.1 : ℝ)) / 2)
          + n.2 * (c.2 - ((e.p1.2 : ℝ) + (e.p2.2 : ℝ)) / 2)
      ∧ (build_wall_strip e elev c).1 =
          [((e.p1.1 : ℝ) - n.1 * offOut e, (e.p1.2 : ℝ) - n.2 * offOut e, (elev.base_z : ℝ)),
           ((e.p2.1 : ℝ) - n.1 * offOut e, (e.p2.2 : ℝ) - n.2 * offOut e, (elev.base_z : ℝ)),
           ((e.p2.1 : ℝ) + n.1 * offIn e, (e.p2.2 : ℝ) + n.2 * offIn e, (elev.base_z : ℝ)),
           ((e.p1.1 : ℝ) + n.1 * offIn e, (e.p1.2 : ℝ) + n.2 * offIn e, (elev.base_z : ℝ)),
           ((e.p1.1 : ℝ) - n.1 * offOut e, (e.p1.2 : ℝ) - n.2 * offOut e, (elev.wall_top_z : ℝ)),
           ((e.p2.1 : ℝ) - n.1 * offOut e, (e.p2.2 : ℝ) - n.2 * offOut e, (elev.wall_top_z : ℝ)),
           ((e.p2.1 : ℝ) + n.1 * offIn e, (e.p2.2 : ℝ) + n.2 * offIn e, (elev.wall_top_z : ℝ)),
           ((e.p1.1 : ℝ) + n.1 * offIn e, (e.p1.2 : ℝ) + n.2 * offIn e, (elev.wall_top_z : ℝ))]
      ∧ (build_wall_strip e elev c).2
          = [(0, 1, 5, 4), (2, 3, 7, 6), (0, 4, 7, 3), (1, 2, 6, 5), (0, 3, 2, 1), (4, 5, 6, 7)]
      ∧ (build_wall_strip e elev c).1.length = 8
      ∧ (e.edge_type = EdgeType.EXTERIOR →
          (build_wall_strip e elev c).1.take 2 =
            [((e.p1.1 : ℝ), (e.p1.2 : ℝ), (elev.base_z : ℝ)),
             ((e.p2.1 : ℝ), (e.p2.2 : ℝ), (elev.base_z : ℝ))]) := by
  refine ⟨inward_normal ((e.p1.1 : ℝ), (e.p1.2 : ℝ)) ((e.p2.1 : ℝ), (e.p2.2 : ℝ)) c,
    rfl, inward_normal_unit _ _ _ h, inward_normal_toward_centroid _ _ _ h, ?_, rfl, ?_, ?_⟩
  · cases he : e.edge_type <;>
      simp [build_wall_strip, he, offOut, offIn]
  · rfl
  · intro he
    simp [build_wall_strip, he, List.take]

/-- C4 witness: an EXTERIOR edge of length 1 along the x axis at floor 0. -/
theorem build_wall_strip_spec_witness :
    (build_wall_strip ⟨(0, 0), (1, 0), EdgeType.EXTERIOR⟩ (floor_elevations 0) (1/2, 1/2)).2
      = [(0, 1, 5, 4), (2, 3, 7, 6), (0, 4, 7, 3), (1, 2, 6, 5), (0, 3, 2, 1), (4, 5, 6, 7)]
    ∧ (build_wall_strip ⟨(0, 0), (1, 0), EdgeType.EXTERIOR⟩ (floor_elevations 0) (1/2, 1/2)).1.length
      = 8 := by
  obtain ⟨n, -, -, -, -, hfaces, hlen, -⟩ :=
    build_wall_strip_spec ⟨(0, 0), (1, 0), EdgeType.EXTERIOR⟩ (floor_elevations 0) (1/2, 1/2)
      (by norm_num [hypot, Real.sqrt_one])
  exact ⟨hfaces, hlen⟩

/-! ## SceneGrid JSON serialization (grid_manager.py lines 230-294) -/

/-- Decimal digit character, digit d rendered as the character of code 48 + d. -/
def digitChar (d : ℕ) : Char := Char.ofNat (48 + d)

/-- Little-endian decimal digits of a natural number, with explicit fuel so
the definition reduces structurally. -/
def natDigitsRev : ℕ → ℕ → List ℕ
  | 0, _ => []
  | fuel + 1, n => if n = 0 then [] else n % 10 :: natDigitsRev fuel (n / 10)

/-- Decimal rendering of a natural number, as Python str(). -/
def natToChars (n : ℕ) : List Char :=
  if n = 0 then ['0'] else ((natDigitsRev n n).map digitChar).reverse

/-- Decimal rendering of an integer, as Python f-string formatting. -/
def intToChars (i : ℤ) : List Char :=
  if i < 0 then '-' :: natToChars i.natAbs else natToChars i.natAbs

/-- The cell-key f-string of SceneGrid.to_json (grid_manager.py line 243). -/
def cellKey (c : Cell) : String :=
  ⟨intToChars c.1 ++ (',' :: (intToChars c.2.1 ++ (',' :: intToChars c.2.2)))⟩

/-- Python int() on the decimal strings the cell-key f-string produces. -/
def parseNat (cs : List Char) : ℕ := cs.foldl (fun a c => a * 10 + (c.toNat - 48)) 0

/-- Python int() including the sign, on such strings. -/
def parseInt (cs : List Char) : ℤ :=
  match cs with
  | [] => 0
  | c :: t => if c = '-' then -(parseNat t : ℤ) else (parseNat (c :: t) : ℤ)

/-- Python str.split(",") on a list of characters. -/
def splitComma : List Char → List (List Char)
  | [] => [[]]
  | c :: cs =>
      if c = ',' then [] :: splitComma cs
      else
        match splitComma cs with
        | [] => [[c]]
        | g :: gs => (c :: g) :: gs

/-- The "x,y,z" key parse of scene_from_json (grid_manager.py line 288):
x, y, z = map(int, cell_str.split(",")). -/
def parseCellKey (s : String) : Cell :=
  match (splitComma s.data).map parseInt with
  | [x, y, z] => (x, y, z)
  | _ => (0, 0, 0)

/-- The JSON object serialized for one registered object
(grid_manager.py lines 246-254). -/
structure ObjJson where
  grid_pos : Cell
  grid_size : ℤ × ℤ × ℤ
  snap_mode : String
  tags : List String
deriving DecidableEq

/-- The JSON document emitted by SceneGrid.to_json: cells as an ordered map
from "x,y,z" keys to names, objects as an ordered map from names to their
serialized fields. The external json.dumps renders such a document
deterministically and injectively (indent=2) and json.loads inverts it, so
string identity of to_json output is identity of this document. -/
structure SceneJson where
  cells : List (String × String)
  objects : List (String × ObjJson)
deriving DecidableEq

/-- SceneGrid.to_json (grid_manager.py lines 230-256), as the JSON document
handed to json.dumps. -/
def to_json (g : SceneGrid) : SceneJson :=
  { cells := g.cells.map (fun cn => (cellKey cn.1, cn.2)),
    objects := g.objects.map (fun no =>
      (no.1, ⟨no.2.grid_pos, no.2.grid_size, no.2.snap_mode, no.2.tags⟩)) }

/-- scene_from_json (grid_manager.py lines 269-294): reconstruct the cells
from their parsed keys; objects are NOT reconstructed (the source leaves a
placeholder comment there), so the objects dict of the result stays empty. -/
def scene_from_json (j : SceneJson) : SceneGrid :=
  { cells := j.cells.map (fun kn => (parseCellKey kn.1, kn.2)),
    objects := [] }

/-! ## Decimal round-trip lemmas -/

/-- Value of a little-endian digit list. -/
def valLE : List ℕ → ℕ
  | [] => 0
  | d :: ds => d + 10 * valLE ds

theorem valLE_natDigitsRev (fuel : ℕ) : ∀ n : ℕ, n ≤ fuel → valLE (natDigitsRev fuel n) = n := by
  induction fuel with
  | zero =>
      intro n hn
      obtain rfl : n = 0 := Nat.le_zero.mp hn
      simp [natDigitsRev, valLE]
  | succ fuel ih =>
      intro n hn
      by_cases h0 : n = 0
      · subst h0; simp [natDigitsRev, valLE]
      · have hdiv : n / 10 ≤ fuel := by
          have : n / 10 < n := Nat.div_lt_self (Nat.pos_of_ne_zero h0) (by norm_num)
          omega
        simp only [natDigitsRev, if_neg h0, valLE, ih (n / 10) hdiv]
        omega

theorem natDigitsRev_lt_ten (fuel : ℕ) :
    ∀ n d : ℕ, d ∈ natDigitsRev fuel n → d < 10 := by
  induction fuel with
  | zero => intro n d hd; simp [natDigitsRev] at hd
  | succ fuel ih =>
      intro n d hd
      by_cases h0 : n = 0
      · subst h0; simp [natDigitsRev] at hd
      · simp only [natDigitsRev, if_neg h0, List.mem_cons] at hd
        rcases hd with rfl | hd
        · exact Nat.mod_lt n (by norm_num)
        · exact ih _ _ hd

theorem digitChar_toNat : ∀ d : ℕ, d < 10 → (digitChar d).toNat = 48 + d := by decide

theorem digitChar_ne_minus : ∀ d : ℕ, d < 10 → digitChar d ≠ '-' := by decide

theorem digitChar_ne_comma : ∀ d : ℕ, d < 10 → digitChar d ≠ ',' := by decide

theorem foldr_digits_eq_valLE (le : List ℕ) (h : ∀ d ∈ le, d < 10) :
    le.foldr (fun d a => a * 10 + ((digitChar d).toNat - 48)) 0 = valLE le := by
  induction le with
  | nil => simp [valLE]
  | cons d ds ih =>
      have hd : d < 10 := h d (List.mem_cons_self d ds)
      have hds := ih (fun x hx => h x (List.mem_cons_of_mem d hx))
      simp only [List.foldr_cons, valLE, hds, digitChar_toNat d hd]
      omega

theorem parseNat_natToChars (n : ℕ) : parseNat (natToChars n) = n := by
  by_cases h0 : n = 0
  · subst h0; rfl
  · simp only [natToChars, if_neg h0, parseNat, List.foldl_reverse, List.foldr_map]
    exact (foldr_digits_eq_valLE _ (natDigitsRev_lt_ten n n)).trans
      (valLE_natDigitsRev n n le_rfl)

theorem natToChars_digits (n : ℕ) : ∀ c ∈ natToChars n, ∃ d, d < 10 ∧ c = digitChar d := by
  intro c hc
  by_cases h0 : n = 0
  · subst h0
    norm_num [natToChars] at hc
    exact ⟨0, by norm_num, by rw [hc]; decide⟩
  · simp only [natToChars, if_neg h0, List.mem_reverse, List.mem_map] at hc
    obtain ⟨d, hd, rfl⟩ := hc
    exact ⟨d, natDigitsRev_lt_ten n n d hd, rfl⟩

theorem natToChars_ne_nil (n : ℕ) : natToChars n ≠ [] := by
  by_cases h0 : n = 0
  · subst h0; simp [natToChars]
  · simp only [natToChars, if_neg h0, ne_eq, List.reverse_eq_nil_iff, List.map_eq_nil_iff]
    cases hf : natDigitsRev n n with
    | nil =>
        exfalso
        have := valLE_natDigitsRev n n le_rfl
        rw [hf] at this
        exact h0 (by simpa [valLE] using this.symm)
    | cons d ds => simp

theorem comma_notMem_natToChars (n : ℕ) : ',' ∉ natToChars n := by
  intro hc
  obtain ⟨d, hd, he⟩ := natToChars_digits n ',' hc
  exact digitChar_ne_comma d hd he.symm

theorem comma_notMem_intToChars (i : ℤ) : ',' ∉ intToChars i := by
  unfold intToChars
  split_ifs with hi
  · intro hc
    rcases List.mem_cons.mp hc with he | hc
    · exact absurd he (by decide)
    · exact comma_notMem_natToChars _ hc
  · exact comma_notMem_natToChars _

theorem parseInt_intToChars (i : ℤ) : parseInt (intToChars i) = i := by
  by_cases hi : i < 0
  · rw [intToChars, if_pos hi]
    show (if ('-' : Char) = '-' then -(parseNat (natToChars i.natAbs) : ℤ)
      else (parseNat ('-' :: natToChars i.natAbs) : ℤ)) = i
    rw [if_pos rfl, parseNat_natToChars]
    omega
  · simp only [intToChars, if_neg hi]
    cases hc : natToChars i.natAbs with
    | nil => exact absurd hc (natToChars_ne_nil _)
    | cons c t =>
        have hcd : c ≠ '-' := by
          obtain ⟨d, hd, he⟩ := natToChars_digits i.natAbs c (hc ▸ List.mem_cons_self c t)
          exact he ▸ digitChar_ne_minus d hd
        simp only [parseInt, if_neg hcd]
        rw [← hc, parseNat_natToChars]
        omega

theorem splitComma_append (a r : List Char) (h : ',' ∉ a) :
    splitComma (a ++ ',' :: r) = a :: splitComma r := by
  induction a with
  | nil => simp [splitComma]
  | cons c a' ih =>
      simp only [List.mem_cons, not_or] at h
      have hc : c ≠ ',' := fun e => h.1 e.symm
      have hr : splitComma (a'.append (',' :: r)) = a' :: splitComma r := ih h.2
      simp only [List.cons_append, splitComma, if_neg hc, hr]

theorem splitComma_no_comma (a : List Char) (h : ',' ∉ a) : splitComma a = [a] := by
  induction a with
  | nil => rfl
  | cons c a' ih =>
      simp only [List.mem_cons, not_or] at h
      have hc : c ≠ ',' := fun e => h.1 e.symm
      simp only [splitComma, if_neg hc, ih h.2]

theorem parseCellKey_cellKey (c : Cell) : parseCellKey (cellKey c) = c := by
  obtain ⟨x, y, z⟩ := c
  have hs : splitComma (intToChars x ++ (',' :: (intToChars y ++ (',' :: intToChars z))))
      = [intToChars x, intToChars y, intToChars z] := by
    rw [splitComma_append _ _ (comma_notMem_intToChars x),
      splitComma_append _ _ (comma_notMem_intToChars y),
      splitComma_no_comma _ (comma_notMem_intToChars z)]
  simp only [parseCellKey, cellKey, hs, List.map_cons, List.map_nil,
    parseInt_intToChars]

/-! ## Claim C8 -/

/-- Concrete object used to exhibit the serialization round-trip failure. -/
def demoObj : GridObject :=
  ⟨"wall_01", (0, 0, 0), (1, 1, 1), "meso", ["arch_wall"], [(0, 0, 0)]⟩

/-- The grid obtained by placing demoObj on the empty grid. -/
def demoGrid : SceneGrid := ⟨[((0, 0, 0), "wall_01")], [("wall_01", demoObj)]⟩

/-- C8 counterexample: for the grid holding one successfully placed object,
serialize → parse → serialize does not reproduce the first document (hence
not the first string): scene_from_json drops every registered object, so the
second document has an empty objects map. -/
theorem to_json_roundtrip_cex :
    place SceneGrid.empty demoObj = .ok (demoGrid, true)
    ∧ to_json (scene_from_json (to_json demoGrid)) ≠ to_json demoGrid := by
  exact ⟨rfl, by decide⟩

/-- C8 amended: for every SceneGrid whose objects map is empty (in particular
every grid that scene_from_json itself produced), serialize → parse →
serialize reproduces the document, hence the identical JSON string. -/
theorem to_json_roundtrip_no_objects (g : SceneGrid) (h : g.objects = []) :
    to_json (scene_from_json (to_json g)) = to_json g := by
  simp only [to_json, scene_from_json, h, List.map_nil, List.map_map]
  refine congrArg (fun cs => SceneJson.mk cs []) ?_
  apply List.map_congr_left
  intro cn _
  simp [Function.comp, parseCellKey_cellKey]

/-- C8 amended, witness on a one-cell grid with a negative coordinate. -/
theorem to_json_roundtrip_no_objects_witness :
    to_json (scene_from_json (to_json ⟨[((-1, 2, 3), "w")], []⟩))
      = to_json ⟨[((-1, 2, 3), "w")], []⟩ :=
  to_json_roundtrip_no_objects ⟨[((-1, 2, 3), "w")], []⟩ rfl

end BlenPC
